import Mathlib

/-!
Verification of the `lgr-core` action module (`src/lgr/action.py`).

The module defines the `Action` value type of an LGR (Label Generation
Ruleset) and its disposition-evaluation method `apply`.  We embed the
data model and the two operations (`__init__`, `apply`) as executable
Lean definitions and prove the specified properties about them.

Modelling choices:
* dispositions and rule names are `String`s; a label is a `List Nat` of
  code points;
* the Python `frozenset` fields become `Option (Finset String)`
  (`None` ↦ `none`);
* the external rule registry is a partial map `String → Option ρ`
  for an opaque rule-handle type `ρ`; the external matcher
  `rule.matches(label, rules_lookup, classes_lookup, unicode_database)`
  is an explicit function argument `matchesFn`; the class registry and
  Unicode database are opaque values of types `κ` and `υ` passed
  through to the matcher untouched;
* Python exceptions become `Except` results: the constructor's
  `LGRFormatException` and the `KeyError` raised by the dictionary
  lookup `rules_lookup[name]` (the spec's `UnknownRuleReference`).
-/

namespace LgrCore

/-- Reason codes of `LGRFormatException` (only the one used by `action.py`). -/
inductive LGRFormatReason where
  | MATCH_NOT_MATCH
  deriving DecidableEq

/-- The `LGRFormatException` raised by `Action.__init__`. -/
structure LGRFormatException where
  reason : LGRFormatReason
  deriving DecidableEq

/-- Error raised during `Action.apply` when a referenced rule name is not
in the rule registry (the `KeyError` of `rules_lookup[self.match]`,
called `UnknownRuleReference` in the specification). -/
inductive RuleError where
  | unknownRuleReference (name : String)
  deriving DecidableEq

/-- The `Action` data model: the fields stored by `Action.__init__` after
normalisation (`self.disp`, `self.comment`, `self.match`,
`self.not_match`, `self.any_variant`, `self.all_variants`,
`self.only_variants`). -/
structure Action where
  disp : String
  comment : Option String
  «match» : Option String
  not_match : Option String
  any_variant : Option (Finset String)
  all_variants : Option (Finset String)
  only_variants : Option (Finset String)
  deriving DecidableEq

/-- `frozenset(v) if v else None`: a missing or empty sequence becomes
`none`, a non-empty sequence becomes its set of elements. -/
def normVariantSet (v : Option (List String)) : Option (Finset String) :=
  match v with
  | some l => if l.isEmpty then none else some l.toFinset
  | none => none

/-- `Action.__init__(disp, comment, match, not_match, any_variant,
all_variants, only_variants)`: normalises the three variant-set fields
and raises `LGRFormatException(MATCH_NOT_MATCH)` when both `match` and
`not_match` are given. -/
def Action.init (disp : String) (comment : Option String)
    (m : Option String) (not_match : Option String)
    (any_variant : Option (List String))
    (all_variants : Option (List String))
    (only_variants : Option (List String)) :
    Except LGRFormatException Action :=
  if m.isSome && not_match.isSome then
    Except.error ⟨LGRFormatReason.MATCH_NOT_MATCH⟩
  else
    Except.ok
      { disp := disp
        comment := comment
        «match» := m
        not_match := not_match
        any_variant := normVariantSet any_variant
        all_variants := normVariantSet all_variants
        only_variants := normVariantSet only_variants }

/-- "First bullet" of `Action.apply` (lines 85–99): the rule condition.
`rule_matched` starts `True`; when `self.match` is set the named rule is
looked up (`KeyError` → `unknownRuleReference`) and evaluated; when
`self.not_match` is set the result is negated. -/
def Action.ruleMatched {ρ κ υ : Type} (a : Action) (label : List Nat)
    (rules_lookup : String → Option ρ) (classes_lookup : κ)
    (unicode_database : υ)
    (matchesFn : ρ → List Nat → (String → Option ρ) → κ → υ → Bool) :
    Except RuleError Bool :=
  match a.«match» with
  | some name =>
      match rules_lookup name with
      | some rule =>
          Except.ok (matchesFn rule label rules_lookup classes_lookup unicode_database)
      | none => Except.error (RuleError.unknownRuleReference name)
  | none =>
      match a.not_match with
      | some name =>
          match rules_lookup name with
          | some rule =>
              Except.ok (!(matchesFn rule label rules_lookup classes_lookup unicode_database))
          | none => Except.error (RuleError.unknownRuleReference name)
      | none => Except.ok true

/-- "Second bullet" of `Action.apply` (lines 102–130): the variant-set
condition.  `variant_matched` starts `True`; the first present
quantifier among `any_variant`, `all_variants`, `only_variants` (in
that order) decides it. -/
def Action.variantMatched (a : Action) (disp_set : Finset String)
    (only_variants : Bool) : Bool :=
  match a.any_variant with
  | some s => decide (0 < (s ∩ disp_set).card)
  | none =>
      match a.all_variants with
      | some s => decide (0 < disp_set.card) && decide (disp_set ⊆ s)
      | none =>
          match a.only_variants with
          | some s =>
              only_variants && decide (0 < disp_set.card) && decide (disp_set ⊆ s)
          | none => true

/-- `Action.apply(label, disp_set, only_variants, rules_lookup,
classes_lookup, unicode_database)`: computes the rule condition and the
variant condition and returns `self.disp` when both hold, `None`
otherwise; a rule-lookup failure propagates. -/
def Action.apply {ρ κ υ : Type} (a : Action) (label : List Nat)
    (disp_set : Finset String) (only_variants : Bool)
    (rules_lookup : String → Option ρ) (classes_lookup : κ)
    (unicode_database : υ)
    (matchesFn : ρ → List Nat → (String → Option ρ) → κ → υ → Bool) :
    Except RuleError (Option String) :=
  match a.ruleMatched label rules_lookup classes_lookup unicode_database matchesFn with
  | Except.error e => Except.error e
  | Except.ok rule_matched =>
      let variant_matched := a.variantMatched disp_set only_variants
      if rule_matched && variant_matched then Except.ok (some a.disp)
      else Except.ok none

/-- Spec §4.2 step 1, stated from the specification's words: the value
`b` the spec assigns to `rule_matched` — the named rule's result when
`match` is present, its negation when `not_match` is present, `true`
when neither is present. -/
def ruleMatchedSpec {ρ κ υ : Type} (a : Action) (label : List Nat)
    (rules_lookup : String → Option ρ) (classes_lookup : κ)
    (unicode_database : υ)
    (matchesFn : ρ → List Nat → (String → Option ρ) → κ → υ → Bool)
    (b : Bool) : Prop :=
  match a.«match», a.not_match with
  | some name, _ =>
      ∃ r, rules_lookup name = some r ∧
        b = matchesFn r label rules_lookup classes_lookup unicode_database
  | none, some name =>
      ∃ r, rules_lookup name = some r ∧
        b = !(matchesFn r label rules_lookup classes_lookup unicode_database)
  | none, none => b = true

/-- Spec §4.2 step 2, stated from the specification's words: the
condition the spec assigns to `variant_matched`, with the fixed
priority any → all → only. -/
def variantMatchedSpec (a : Action) (disp_set : Finset String)
    (flag : Bool) : Prop :=
  match a.any_variant, a.all_variants, a.only_variants with
  | some s, _, _ => (s ∩ disp_set).Nonempty
  | none, some s, _ => disp_set.Nonempty ∧ disp_set ⊆ s
  | none, none, some s => flag = true ∧ disp_set.Nonempty ∧ disp_set ⊆ s
  | none, none, none => True

/-- `Action.__eq__` (lines 144–150): structural equality over the six
fields `disp`, `match`, `not_match`, `any_variant`, `all_variants`,
`only_variants`; `comment` is not compared. -/
def Action.beq (a b : Action) : Bool :=
  decide (a.disp = b.disp)
    && decide (a.«match» = b.«match»)
    && decide (a.not_match = b.not_match)
    && decide (a.any_variant = b.any_variant)
    && decide (a.all_variants = b.all_variants)
    && decide (a.only_variants = b.only_variants)

/-- `Action.__hash__` (lines 152–155) hashes the tuple of the same six
fields; we model the hash by that tuple itself (Python's `hash` is a
function of it, so equal tuples hash identically). -/
def Action.hashKey (a : Action) :
    String × Option String × Option String × Option (Finset String)
      × Option (Finset String) × Option (Finset String) :=
  (a.disp, a.«match», a.not_match, a.any_variant, a.all_variants, a.only_variants)

/-- The source's Boolean variant condition agrees with the
specification's propositional reading. -/
theorem variantMatched_iff_spec (a : Action) (ds : Finset String) (f : Bool) :
    a.variantMatched ds f = true ↔ variantMatchedSpec a ds f := by
  unfold Action.variantMatched variantMatchedSpec
  rcases a.any_variant with _ | s₁
  · rcases a.all_variants with _ | s₂
    · rcases a.only_variants with _ | s₃
      · simp
      · cases f <;> simp [Finset.card_pos]
    · simp [Finset.card_pos]
  · simp [Finset.card_pos]

/-- When the spec's `rule_matched` value is `b`, the source's rule
condition evaluates to `Except.ok b`. -/
theorem ruleMatched_of_spec {ρ κ υ : Type} (a : Action) (label : List Nat)
    (rl : String → Option ρ) (cl : κ) (udb : υ)
    (mf : ρ → List Nat → (String → Option ρ) → κ → υ → Bool) (b : Bool)
    (h : ruleMatchedSpec a label rl cl udb mf b) :
    a.ruleMatched label rl cl udb mf = Except.ok b := by
  unfold ruleMatchedSpec at h
  unfold Action.ruleMatched
  rcases hm : a.«match» with _ | name
  · rcases hn : a.not_match with _ | name
    · simp [hm, hn] at h
      simp [h]
    · simp [hm, hn] at h
      obtain ⟨r, hr, hb⟩ := h
      simp [hr, hb]
  · simp [hm] at h
    obtain ⟨r, hr, hb⟩ := h
    simp [hr, hb]

/-! ### Concrete material used by the witnesses -/

/-- An empty rule registry over the unit rule-handle type. -/
def noRules : String → Option Unit := fun _ => none

/-- A registry in which only the rule name "r" resolves. -/
def oneRule : String → Option Unit := fun n => if n = "r" then some () else none

/-- A rule matcher that matches every label. -/
def alwaysTrue : Unit → List Nat → (String → Option Unit) → Unit → Unit → Bool :=
  fun _ _ _ _ _ => true

/-! ### Claim theorems -/

/-- C1: for every evaluation context, `apply` returns `Some(disposition)`
exactly when `rule_matched` and `variant_matched` both hold and `None`
otherwise, where `rule_matched` is the named rule's result under
`match`, its negation under `not_match`, and true when neither is
present (`ruleMatchedSpec`), and `variant_matched` is the spec's
variant condition (`variantMatchedSpec`). -/
theorem apply_some_iff_rule_and_variant {ρ κ υ : Type} (a : Action)
    (label : List Nat) (ds : Finset String) (f : Bool)
    (rl : String → Option ρ) (cl : κ) (udb : υ)
    (mf : ρ → List Nat → (String → Option ρ) → κ → υ → Bool) (b : Bool)
    (h : ruleMatchedSpec a label rl cl udb mf b) :
    (a.apply label ds f rl cl udb mf = Except.ok (some a.disp)
        ↔ b = true ∧ variantMatchedSpec a ds f)
    ∧ (a.apply label ds f rl cl udb mf = Except.ok none
        ↔ ¬(b = true ∧ variantMatchedSpec a ds f)) := by
  have hr := ruleMatched_of_spec a label rl cl udb mf b h
  have hv := variantMatched_iff_spec a ds f
  rw [← hv]
  unfold Action.apply
  rw [hr]
  cases b <;> cases hb : a.variantMatched ds f <;> simp [hb]

def actC1 : Action := ⟨"invalid", none, some "r", none, some {"x"}, none, none⟩

theorem apply_some_iff_rule_and_variant_witness :
    actC1.apply [] {"x"} true oneRule () () alwaysTrue = Except.ok (some "invalid")
      ↔ (true = true ∧ variantMatchedSpec actC1 {"x"} true) :=
  (apply_some_iff_rule_and_variant actC1 [] {"x"} true oneRule () () alwaysTrue true
    ⟨(), rfl, rfl⟩).1

/-- C2: only the first present quantifier in the order
any → all → only is evaluated: replacing the lower-priority quantifier
fields by anything (present or absent) never changes `apply`'s outcome
when a higher-priority quantifier is present. -/
theorem apply_quantifier_priority {ρ κ υ : Type} (a : Action)
    (s : Finset String) (av ov : Option (Finset String)) (label : List Nat)
    (ds : Finset String) (f : Bool) (rl : String → Option ρ) (cl : κ) (udb : υ)
    (mf : ρ → List Nat → (String → Option ρ) → κ → υ → Bool) :
    (a.any_variant = some s →
        Action.apply { a with all_variants := av, only_variants := ov }
            label ds f rl cl udb mf
          = a.apply label ds f rl cl udb mf)
    ∧ (a.any_variant = none → a.all_variants = some s →
        Action.apply { a with only_variants := ov } label ds f rl cl udb mf
          = a.apply label ds f rl cl udb mf) := by
  constructor
  · intro h
    unfold Action.apply Action.ruleMatched Action.variantMatched
    simp [h]
  · intro h1 h2
    unfold Action.apply Action.ruleMatched Action.variantMatched
    simp [h1, h2]

def actC2 : Action := ⟨"block", none, none, none, some {"x"}, none, none⟩

theorem apply_quantifier_priority_witness :
    Action.apply { actC2 with all_variants := some {"valid"}, only_variants := none }
        [] {"valid"} true noRules () () alwaysTrue
      = actC2.apply [] {"valid"} true noRules () () alwaysTrue
    ∧ actC2.apply [] {"valid"} true noRules () () alwaysTrue = Except.ok none :=
  ⟨(apply_quantifier_priority actC2 {"x"} (some {"valid"}) none [] {"valid"} true
      noRules () () alwaysTrue).1 rfl,
    by rfl⟩

/-- C3: an Action whose `match` (or `not_match`) names a rule absent
from the registry makes `apply` fail with `unknownRuleReference` for
that name; the error, not a disposition, is returned. -/
theorem apply_unknown_rule {ρ κ υ : Type} (a : Action) (name : String)
    (label : List Nat) (ds : Finset String) (f : Bool)
    (rl : String → Option ρ) (cl : κ) (udb : υ)
    (mf : ρ → List Nat → (String → Option ρ) → κ → υ → Bool) :
    (a.«match» = some name → rl name = none →
        a.apply label ds f rl cl udb mf
          = Except.error (RuleError.unknownRuleReference name))
    ∧ (a.«match» = none → a.not_match = some name → rl name = none →
        a.apply label ds f rl cl udb mf
          = Except.error (RuleError.unknownRuleReference name)) := by
  constructor
  · intro h1 h2
    unfold Action.apply Action.ruleMatched
    simp [h1, h2]
  · intro h1 h2 h3
    unfold Action.apply Action.ruleMatched
    simp [h1, h2, h3]

def actC3 : Action := ⟨"d", none, some "missing", none, none, none, none⟩

theorem apply_unknown_rule_witness :
    actC3.apply [] ∅ false noRules () () alwaysTrue
      = Except.error (RuleError.unknownRuleReference "missing") :=
  (apply_unknown_rule actC3 "missing" [] ∅ false noRules () () alwaysTrue).1 rfl rfl

/-- C4: with `all_variants` governing (present, `any_variant` absent),
the variant condition holds iff `disp_set` is non-empty and a subset of
`all_variants`; the empty `disp_set` never satisfies it. -/
theorem all_variants_semantics (a : Action) (s ds : Finset String) (f : Bool)
    (h1 : a.any_variant = none) (h2 : a.all_variants = some s) :
    (a.variantMatched ds f = true ↔ ds.Nonempty ∧ ds ⊆ s)
    ∧ a.variantMatched ∅ f = false := by
  unfold Action.variantMatched
  simp [h1, h2, Finset.card_pos]

def actC4 : Action := ⟨"d", none, none, none, none, some {"valid", "blocked"}, none⟩

theorem all_variants_semantics_witness :
    (actC4.variantMatched {"valid"} true = true
        ↔ Finset.Nonempty {"valid"}
          ∧ ({"valid"} : Finset String) ⊆ {"valid", "blocked"})
    ∧ actC4.variantMatched ∅ true = false :=
  all_variants_semantics actC4 {"valid", "blocked"} {"valid"} true rfl rfl

/-- C5: with `only_variants` governing (present, `any_variant` and
`all_variants` absent), the variant condition holds iff the
`only_variants` flag is true, `disp_set` is non-empty and a subset of
`only_variants`; a false flag defeats the quantifier for every
`disp_set`. -/
theorem only_variants_semantics (a : Action) (s ds : Finset String) (f : Bool)
    (h1 : a.any_variant = none) (h2 : a.all_variants = none)
    (h3 : a.only_variants = some s) :
    (a.variantMatched ds f = true ↔ f = true ∧ ds.Nonempty ∧ ds ⊆ s)
    ∧ a.variantMatched ds false = false := by
  unfold Action.variantMatched
  cases f <;> simp [h1, h2, h3, Finset.card_pos, and_assoc]

def actC5 : Action := ⟨"d", none, none, none, none, none, some {"valid"}⟩

theorem only_variants_semantics_witness :
    (actC5.variantMatched {"valid"} true = true
        ↔ true = true ∧ Finset.Nonempty {"valid"}
          ∧ ({"valid"} : Finset String) ⊆ {"valid"})
    ∧ actC5.variantMatched {"valid"} false = false :=
  only_variants_semantics actC5 {"valid"} {"valid"} true rfl rfl rfl

/-- C6: constructing an Action with both `match` and `not_match` set
always fails with the `MATCH_NOT_MATCH` configuration error, and no
other combination of constructor arguments fails. -/
theorem init_match_not_match (d : String) (c m nm : Option String)
    (av alv ov : Option (List String)) :
    (m.isSome = true → nm.isSome = true →
        Action.init d c m nm av alv ov
          = Except.error ⟨LGRFormatReason.MATCH_NOT_MATCH⟩)
    ∧ (m = none ∨ nm = none →
        ∃ a, Action.init d c m nm av alv ov = Except.ok a) := by
  constructor
  · intro h1 h2
    unfold Action.init
    simp [h1, h2]
  · rintro (h | h) <;> subst h
    · exact ⟨⟨d, c, none, nm, normVariantSet av, normVariantSet alv,
        normVariantSet ov⟩, by unfold Action.init; simp⟩
    · exact ⟨⟨d, c, m, none, normVariantSet av, normVariantSet alv,
        normVariantSet ov⟩, by unfold Action.init; simp⟩

theorem init_match_not_match_witness :
    Action.init "d" none (some "r1") (some "r2") none none none
        = Except.error ⟨LGRFormatReason.MATCH_NOT_MATCH⟩
    ∧ ∃ a, Action.init "d" none (some "r1") none none none none = Except.ok a :=
  ⟨(init_match_not_match "d" none (some "r1") (some "r2") none none none).1 rfl rfl,
    (init_match_not_match "d" none (some "r1") none none none none).2 (Or.inr rfl)⟩

/-- C7: with `any_variant` present, the variant condition holds iff
`any_variant` and `disp_set` intersect; every disjoint `disp_set`
(including the empty one) fails it. -/
theorem any_variant_semantics (a : Action) (s ds : Finset String) (f : Bool)
    (h : a.any_variant = some s) :
    a.variantMatched ds f = true ↔ (s ∩ ds).Nonempty := by
  unfold Action.variantMatched
  simp [h, Finset.card_pos]

def actC7 : Action := ⟨"d", none, none, none, some {"valid", "blocked"}, none, none⟩

theorem any_variant_semantics_witness :
    actC7.variantMatched {"valid"} false = true
      ↔ (({"valid", "blocked"} : Finset String) ∩ {"valid"}).Nonempty :=
  any_variant_semantics actC7 {"valid", "blocked"} {"valid"} false rfl

/-- C8: an Action with `match`, `not_match`, `any_variant`,
`all_variants` and `only_variants` all absent is unconditional: `apply`
returns its disposition for every context. -/
theorem unconditional_action {ρ κ υ : Type} (a : Action) (label : List Nat)
    (ds : Finset String) (f : Bool) (rl : String → Option ρ) (cl : κ) (udb : υ)
    (mf : ρ → List Nat → (String → Option ρ) → κ → υ → Bool)
    (h1 : a.«match» = none) (h2 : a.not_match = none) (h3 : a.any_variant = none)
    (h4 : a.all_variants = none) (h5 : a.only_variants = none) :
    a.apply label ds f rl cl udb mf = Except.ok (some a.disp) := by
  unfold Action.apply Action.ruleMatched Action.variantMatched
  simp [h1, h2, h3, h4, h5]

def actC8 : Action := ⟨"catch-all", none, none, none, none, none, none⟩

theorem unconditional_action_witness :
    actC8.apply [97] {"x"} false noRules () () alwaysTrue
      = Except.ok (some "catch-all") :=
  unconditional_action actC8 [97] {"x"} false noRules () () alwaysTrue
    rfl rfl rfl rfl rfl

/-- `normVariantSet` never yields a present-but-empty set. -/
theorem normVariantSet_ne_some_empty (v : Option (List String)) :
    normVariantSet v ≠ some ∅ := by
  unfold normVariantSet
  rcases v with _ | l
  · simp
  · rcases hl : l.isEmpty with _ | _
    · have hne : l ≠ [] := by
        intro h
        rw [h] at hl
        simp at hl
      simp [hl]
      exact hne
    · simp [hl]

/-- C9: construction normalizes an empty collection for any of the three
quantifier fields to an absent field — the constructed Action equals the
one built with the field absent — and no constructed Action has a
present-but-empty quantifier set. -/
theorem init_normalizes_empty (d : String) (c m nm : Option String)
    (av alv ov : Option (List String)) :
    (Action.init d c m nm (some []) alv ov = Action.init d c m nm none alv ov
      ∧ Action.init d c m nm av (some []) ov = Action.init d c m nm av none ov
      ∧ Action.init d c m nm av alv (some []) = Action.init d c m nm av alv none)
    ∧ (∀ a, Action.init d c m nm av alv ov = Except.ok a →
        a.any_variant ≠ some ∅ ∧ a.all_variants ≠ some ∅
          ∧ a.only_variants ≠ some ∅) := by
  constructor
  · refine ⟨?_, ?_, ?_⟩ <;> · unfold Action.init; rfl
  · intro a ha
    unfold Action.init at ha
    rcases hc : m.isSome && nm.isSome with _ | _
    · rw [hc] at ha
      simp at ha
      subst ha
      exact ⟨normVariantSet_ne_some_empty av, normVariantSet_ne_some_empty alv,
        normVariantSet_ne_some_empty ov⟩
    · rw [hc] at ha
      simp at ha

theorem init_normalizes_empty_witness :
    Action.init "d" none none none (some []) none none
        = Action.init "d" none none none none none none
    ∧ ((⟨"d", none, none, none, some {"x"}, none, none⟩ : Action).any_variant
          ≠ some ∅
        ∧ (⟨"d", none, none, none, some {"x"}, none, none⟩ : Action).all_variants
          ≠ some ∅
        ∧ (⟨"d", none, none, none, some {"x"}, none, none⟩ : Action).only_variants
          ≠ some ∅) :=
  ⟨(init_normalizes_empty "d" none none none (some ["x"]) none none).1.1,
    (init_normalizes_empty "d" none none none (some ["x"]) none none).2
      ⟨"d", none, none, none, some {"x"}, none, none⟩ (by rfl)⟩

/-- C10: two Actions are equal iff all six of `disp`, `match`,
`not_match`, `any_variant`, `all_variants`, `only_variants` are equal
(`comment` excluded), equal Actions have identical hash inputs, and a
difference in any one compared field breaks equality. -/
theorem action_eq_semantics (a b : Action) :
    (a.beq b = true ↔
        (a.disp = b.disp ∧ a.«match» = b.«match» ∧ a.not_match = b.not_match
          ∧ a.any_variant = b.any_variant ∧ a.all_variants = b.all_variants
          ∧ a.only_variants = b.only_variants))
    ∧ (a.beq b = true → a.hashKey = b.hashKey)
    ∧ (∀ c, a.beq { a with comment := c } = true)
    ∧ ((a.disp ≠ b.disp ∨ a.«match» ≠ b.«match» ∨ a.not_match ≠ b.not_match
          ∨ a.any_variant ≠ b.any_variant ∨ a.all_variants ≠ b.all_variants
          ∨ a.only_variants ≠ b.only_variants) → a.beq b = false) := by
  refine ⟨?_, ?_, ?_, ?_⟩
  · unfold Action.beq
    simp [and_assoc]
  · intro h
    unfold Action.beq at h
    simp [and_assoc] at h
    obtain ⟨h1, h2, h3, h4, h5, h6⟩ := h
    unfold Action.hashKey
    rw [h1, h2, h3, h4, h5, h6]
  · intro c
    unfold Action.beq
    simp
  · intro h
    unfold Action.beq
    rcases h with h | h | h | h | h | h <;> simp [h]

def actC10 : Action := ⟨"d", some "c1", some "r", none, some {"x"}, none, none⟩

theorem action_eq_semantics_witness :
    actC10.beq { actC10 with comment := some "c2" } = true
    ∧ actC10.hashKey = ({ actC10 with comment := some "c2" } : Action).hashKey
    ∧ actC10.beq { actC10 with disp := "other" } = false := by
  refine ⟨?_, ?_, ?_⟩
  · exact (action_eq_semantics actC10
      { actC10 with comment := some "c2" }).2.2.1 (some "c2")
  · exact (action_eq_semantics actC10 { actC10 with comment := some "c2" }).2.1
      ((action_eq_semantics actC10
        { actC10 with comment := some "c2" }).2.2.1 (some "c2"))
  · exact (action_eq_semantics actC10 { actC10 with disp := "other" }).2.2.2
      (Or.inl (by decide))

end LgrCore
